import Mathlib

/-!
Shallow embedding of `textattack/models/wrappers/huggingface_model_wrapper.py`
(`HuggingFaceModelWrapper`): the `_model_predict`, `__call__` and `get_grads`
operations, together with the tokenizer and batching collaborators described
by the specification where their code is not part of this repository.

Tensors are modelled concretely as a shape together with row-major flattened
integer data; per-text encoded inputs are association lists from field names
to integer id sequences; Python exceptions are modelled with `Except`.
-/

/-- A concrete tensor: a shape and row-major flattened data. -/
structure Tensor where
  shape : List Nat
  data : List Int
deriving Repr, DecidableEq

/-- Product of the entries of a shape list (number of elements in a block). -/
def prodShape (l : List Nat) : Nat := l.foldr (fun a b => a * b) 1

/-- Slice of flattened data: `sliceData d start len` is the contiguous slice of flattened data
starting at `start` of length `len`. -/
def sliceData (d : List Int) (start len : Nat) : List Int :=
  (d.drop start).take len

/-- Model of `torch.transpose(t, 0, 1)`: swap the first two dimensions.  On tensors of
fewer than two dimensions the model leaves the tensor unchanged (the source
only applies it when `len(grad.shape) > 2`). -/
def transpose01 (t : Tensor) : Tensor :=
  match t.shape with
  | a :: b :: rest =>
    let blk := prodShape rest
    { shape := b :: a :: rest
      data := ((List.range b).map (fun j =>
        ((List.range a).map (fun i =>
          sliceData t.data ((i * b + j) * blk) blk)).flatten)).flatten }
  | _ => t

/-- Model of `t.unbind(dim=0)`: split a tensor along its first dimension into
`t.shape[0]` tensors of the remaining shape. -/
def unbind0 (t : Tensor) : List Tensor :=
  match t.shape with
  | h :: rest =>
    let blk := prodShape rest
    (List.range h).map (fun i =>
      { shape := rest, data := sliceData t.data (i * blk) blk })
  | [] => []

/-- The gradient shape handling of `get_grads` (lines 95–98 of the source):
`if len(grad.shape) > 2: grad = list(torch.transpose(grad, 0, 1).unbind(dim=0))
else: grad = [grad]`. -/
def splitGrad (grad : Tensor) : List Tensor :=
  if grad.shape.length > 2 then unbind0 (transpose01 grad) else [grad]

/-- Index of the first maximum of a list (`torch.argmax` over one row);
`0` on the empty list. -/
def argmaxAux (best : Nat) (bv : Int) (i : Nat) : List Int → Nat
  | [] => best
  | x :: xs => if x > bv then argmaxAux i x (i + 1) xs else argmaxAux best bv (i + 1) xs

/-- Index of the first maximal entry of a row. -/
def argmaxIdx : List Int → Nat
  | [] => 0
  | x :: xs => argmaxAux 0 x 1 xs

/-- The rows of a tensor whose first two dimensions are `n × c`
(row `i` is the slice of `c` entries starting at `i * c`). -/
def tensorRows (t : Tensor) : List (List Int) :=
  match t.shape with
  | n :: c :: _ => (List.range n).map (fun i => sliceData t.data (i * c) c)
  | _ => []

/-- Model of `predictions.argmax(dim=1)`: per-row index of the maximal score. -/
def argmaxDim1 (t : Tensor) : List Nat := (tensorRows t).map argmaxIdx

/-- Modelled Python exceptions raised along the paths of this file. -/
inductive PyError where
  | notImplemented
  | keyError (k : String)
  | indexError
  | runtimeError
deriving Repr, DecidableEq

/-- A per-text `EncodedInput`: an ordered mapping from tokenizer field names
(e.g. "input_ids", "attention_mask") to integer id sequences. -/
abbrev EncodedInput := List (String × List Int)

/-- Python `d[k]` on an `EncodedInput`, as an `Option`. -/
def lookupField (k : String) (d : EncodedInput) : Option (List Int) :=
  (d.find? (fun p => p.1 == k)).map Prod.snd

/-- The ordered field names of an `EncodedInput` (Python `for k in d`). -/
def fieldKeys (d : EncodedInput) : List String := d.map Prod.fst

/-- A Python list comprehension over a fallible body: evaluate in order,
collecting results, propagating the first exception. -/
def collectE (f : α → Except PyError β) : List α → Except PyError (List β)
  | [] => Except.ok []
  | a :: l => (f a).bind fun b => (collectE f l).map (fun bs => b :: bs)

/-- Field access `_dict[k]` with Python's `KeyError` on a missing field. -/
def getField (k : String) (d : EncodedInput) : Except PyError (List Int) :=
  match lookupField k d with
  | some v => Except.ok v
  | none => Except.error (PyError.keyError k)

/-- The list-of-dicts to dict-of-lists transposition of `_model_predict`
(line 27 of the source):
`input_dict = {k: [_dict[k] for _dict in inputs] for k in inputs[0]}`.
Iterates over the field names of the FIRST input only; a later input missing
one of those fields raises `KeyError`; fields of later inputs that the first
input lacks are not consulted.  `inputs[0]` on an empty list raises
`IndexError`. -/
def transposeInputs (inputs : List EncodedInput) :
    Except PyError (List (String × List (List Int))) :=
  match inputs with
  | [] => Except.error PyError.indexError
  | first :: _ =>
    collectE (fun k => (collectE (getField k) inputs).map (fun vs => (k, vs))) (fieldKeys first)

/-- One element of the wrapped model's raw output: either a generated string
(sequence-to-sequence models) or a tensor (classification models, where the
first element is the score tensor). -/
inductive OutItem where
  | str (s : String)
  | tens (t : Tensor)
deriving Repr, DecidableEq

/-- What `_model_predict` returns: the full output list as-is, or only the
first element of the output. -/
inductive PredictResult where
  | full (outs : List OutItem)
  | firstOnly (o : OutItem)
deriving Repr, DecidableEq

/-- The output-handling branch of `_model_predict` (lines 33–42 of the
source): `if isinstance(outputs[0], str): return outputs else: return
outputs[0]`.  `outputs[0]` on an empty output raises `IndexError`. -/
def selectModelOutput (outputs : List OutItem) : Except PyError PredictResult :=
  match outputs with
  | [] => Except.error PyError.indexError
  | OutItem.str s :: rest => Except.ok (PredictResult.full (OutItem.str s :: rest))
  | OutItem.tens t :: _ => Except.ok (PredictResult.firstOnly (OutItem.tens t))

/-- Model of `_model_predict` for an abstract wrapped model `model` (a function from
the transposed input dictionary to its raw output list): transpose the
per-text inputs, call the model with named arguments, then select the
output. -/
def model_predict (model : List (String × List (List Int)) → List OutItem)
    (inputs : List EncodedInput) : Except PyError PredictResult :=
  (transposeInputs inputs).bind (fun d => selectModelOutput (model d))

/-- Modelled from the spec: `tokenize` lives in the missing base class
`PyTorchModelWrapper`; per the spec the tokenizer collaborator maps each
text of the ordered input list to its `EncodedInput`. -/
def tokenize (tok : String → EncodedInput) (texts : List String) :
    List EncodedInput :=
  texts.map tok

/-- Worker for `chunksOf`: `acc` is the (reversed) current chunk, `k` the
capacity remaining in it. -/
def chunksGo (b : Nat) : List α → List α → Nat → List (List α)
  | [], acc, _ => [acc.reverse]
  | x :: xs, acc, 0 => acc.reverse :: chunksGo b xs [x] (b - 1)
  | x :: xs, acc, k + 1 => chunksGo b xs (x :: acc) k

/-- Consecutive chunks of at most `b` elements (the batching collaborator's
partition of the input list into groups of at most `batch_size`). -/
def chunksOf (b : Nat) : List α → List (List α)
  | [] => []
  | x :: xs => chunksGo b xs [x] (b - 1)

/-- Modelled from the spec: the batching collaborator
`textattack.shared.utils.batch_model_predict` is not under `src`; per the
spec it applies the per-batch predict function to successive slices of at
most `batch_size` items and concatenates the results in order, propagating
any exception. -/
def batch_model_predict (f : List EncodedInput → Except PyError (List β))
    (items : List EncodedInput) (b : Nat) : Except PyError (List β) :=
  (collectE f (chunksOf b items)).map List.flatten

/-- Model of `__call__` (lines 44–57 of the source): tokenize the texts, then run the
batched forward pass with gradients disabled.  `f` is the per-batch forward
step (`_model_predict` specialised to the wrapped model). -/
def wrapperCall (tok : String → EncodedInput)
    (f : List EncodedInput → Except PyError (List β))
    (b : Nat) (texts : List String) : Except PyError (List β) :=
  batch_model_predict f (tokenize tok texts) b

/-- The mutable model state touched by `get_grads`: the model's train/eval
mode, the embedding layer weight's `requires_grad` flag, whether a backward
hook is currently registered on the embedding layer, whether accumulated
parameter gradients have been cleared, and (for observing backward) the loss
value most recently differentiated by `loss.backward()`. -/
structure MState where
  trainMode : Bool
  embRequiresGrad : Bool
  hookRegistered : Bool
  gradsZeroed : Bool
  lastBackwardLoss : Option Int
deriving Repr, DecidableEq

/-- The behaviour of the external model and autograd runtime during one
`get_grads` call: whether the wrapped model is a `T5ForTextToText`
(sequence-to-sequence) model, the raw output list of its forward call,
whether the forward call and the backward pass succeed, and the gradient
tensor `grad_out[0]` that the backward hook captures, as a function of the
loss value being differentiated. -/
structure GradEnv where
  isT5 : Bool
  forwardOutputs : List OutItem
  forwardOK : Bool
  backwardOK : Bool
  gradOf : Int → Tensor

/-- The result dictionary of `get_grads`:
`{"tokens": tokens, "ids": ids, "gradient": grad}`. -/
structure GradientResult where
  tokens : List (List String)
  ids : List EncodedInput
  gradient : List Tensor
deriving Repr, DecidableEq

/-- Coercion to a score tensor: `predictions.argmax(dim=1)` requires the predictions to be a tensor; a
list of strings (the `.full` case) has no `argmax` and raises. -/
def asScores : PredictResult → Except PyError Tensor
  | PredictResult.firstOnly (OutItem.tens t) => Except.ok t
  | _ => Except.error PyError.runtimeError

/-- The forward call `self._model_predict(ids)` inside `get_grads`: the
input transposition, then the model call (which may itself raise), then the
output selection. -/
def modelForward (env : GradEnv) (inputs : List EncodedInput) :
    Except PyError PredictResult :=
  (transposeInputs inputs).bind (fun _ =>
    if env.forwardOK then selectModelOutput env.forwardOutputs
    else Except.error PyError.runtimeError)

/-- Model of `get_grads` (lines 59–105 of the source), as a state transformer
returning the final mutable state together with either the result or the
propagated exception.  The steps, in source order: the `T5ForTextToText`
check, `self.model.train()`, saving and forcing the embedding layer's
`requires_grad`, registering the backward hook, `self.model.zero_grad()`,
tokenizing, building `tokens` (each `_ids["input_ids"]` may raise
`KeyError`), the forward call, `argmax`, the loss, `loss.backward()` (on
success the hook appends `grad_out[0]`, recorded here via
`env.gradOf loss`), the shape handling of the captured gradient, and
finally the restoration of `requires_grad` and the hook removal — which the
source performs only on this one path, after the backward pass. -/
def get_grads (env : GradEnv) (lossFn : Tensor → List Nat → Int)
    (tok : String → EncodedInput) (convert : List Int → List String)
    (s0 : MState) (texts : List String) :
    MState × Except PyError GradientResult :=
  if env.isT5 then (s0, Except.error PyError.notImplemented)
  else
    let s1 : MState := { s0 with trainMode := true }
    let originalState := s1.embRequiresGrad
    let s2 : MState := { s1 with embRequiresGrad := true }
    let s3 : MState := { s2 with hookRegistered := true }
    let s4 : MState := { s3 with gradsZeroed := true }
    let ids := tokenize tok texts
    match collectE (fun d => (getField "input_ids" d).map convert) ids with
    | Except.error e => (s4, Except.error e)
    | Except.ok tokens =>
      match modelForward env ids with
      | Except.error e => (s4, Except.error e)
      | Except.ok pr =>
        match asScores pr with
        | Except.error e => (s4, Except.error e)
        | Except.ok predictions =>
          let originalLabel := argmaxDim1 predictions
          let loss := lossFn predictions originalLabel
          if env.backwardOK then
            let grad := env.gradOf loss
            let s5 : MState := { s4 with lastBackwardLoss := some loss }
            let gradient := splitGrad grad
            let s6 : MState :=
              { s5 with embRequiresGrad := originalState, hookRegistered := false }
            (s6, Except.ok { tokens := tokens, ids := ids, gradient := gradient })
          else (s4, Except.error PyError.runtimeError)

/-! Concrete instantiations used in counterexamples and witnesses. -/

/-- A concrete tokenizer: one "input_ids" field holding the text's length. -/
def tok0 : String → EncodedInput := fun s => [("input_ids", [Int.ofNat s.length])]

/-- A concrete `convert_ids_to_tokens`: print each id. -/
def convert0 : List Int → List String := fun l => l.map toString

/-- A concrete loss function. -/
def lossFn0 : Tensor → List Nat → Int :=
  fun t ls => t.data.foldl (fun a x => a + x) 0 + Int.ofNat ls.length

/-- A concrete `2 × 2` score tensor. -/
def scores2 : Tensor := { shape := [2, 2], data := [0, 1, 2, 0] }

/-- A concrete three-dimensional captured gradient, batch dimension `2` in
position `1`. -/
def grad3 : Tensor := { shape := [3, 2, 4], data := (List.range 24).map Int.ofNat }

/-- A concrete two-dimensional captured gradient. -/
def grad2 : Tensor := { shape := [4, 5], data := List.replicate 20 1 }

/-- An initial model state: evaluation mode, embedding weights frozen, no
hook registered. -/
def mstate0 : MState :=
  { trainMode := false, embRequiresGrad := false, hookRegistered := false,
    gradsZeroed := false, lastBackwardLoss := none }

/-- Two concrete input texts. -/
def texts2 : List String := ["a", "bb"]

/-- A concrete classification-model environment whose captured gradient is
three-dimensional. -/
def envOK3 : GradEnv :=
  { isT5 := false, forwardOutputs := [OutItem.tens scores2], forwardOK := true,
    backwardOK := true, gradOf := fun _ => grad3 }

/-- The same environment with a two-dimensional captured gradient. -/
def envOK2 : GradEnv := { envOK3 with gradOf := fun _ => grad2 }

/-- The same environment, but the backward pass raises. -/
def envBackFail : GradEnv := { envOK3 with backwardOK := false }

/-- A text-to-text (`T5ForTextToText`) environment. -/
def envT5 : GradEnv := { envOK3 with isT5 := true }

/-- A concrete per-batch forward step (used to instantiate `wrapperCall`);
like `_model_predict` it raises `IndexError` on an empty batch. -/
def f0 : List EncodedInput → Except PyError (List String) :=
  fun inputs => (transposeInputs inputs).map (fun d => d.map Prod.fst)

/-- The result of the successful `get_grads` run of `envOK3` on `texts2`
from `mstate0`. -/
def resOK3 : GradientResult :=
  { tokens := [["1"], ["2"]],
    ids := [[("input_ids", [1])], [("input_ids", [2])]],
    gradient :=
      [ { shape := [3, 4], data := [0, 1, 2, 3, 8, 9, 10, 11, 16, 17, 18, 19] },
        { shape := [3, 4], data := [4, 5, 6, 7, 12, 13, 14, 15, 20, 21, 22, 23] } ] }

/-- The result of the successful `get_grads` run of `envOK2` on `texts2`
from `mstate0`. -/
def resOK2 : GradientResult :=
  { tokens := [["1"], ["2"]],
    ids := [[("input_ids", [1])], [("input_ids", [2])]],
    gradient := [grad2] }

/-- The final state of those two successful runs. -/
def mstateDone : MState :=
  { trainMode := true, embRequiresGrad := false, hookRegistered := false,
    gradsZeroed := true, lastBackwardLoss := some 5 }

/-! Helper lemmas. -/

theorem chunksGo_flatten (b : Nat) :
    ∀ (l acc : List α) (k : Nat), (chunksGo b l acc k).flatten = acc.reverse ++ l
  | [], acc, _ => by simp [chunksGo]
  | x :: xs, acc, 0 => by
    rw [chunksGo, List.flatten_cons, chunksGo_flatten b xs [x] (b - 1)]
    simp
  | x :: xs, acc, k + 1 => by
    rw [chunksGo, chunksGo_flatten b xs (x :: acc) k]
    simp

theorem chunksOf_flatten (b : Nat) : ∀ l : List α, (chunksOf b l).flatten = l
  | [] => rfl
  | x :: xs => by
    rw [chunksOf, chunksGo_flatten b xs [x] (b - 1)]
    rfl

theorem collectE_map_ok (f : α → Except PyError β) (g : α → β)
    (hf : ∀ a, f a = Except.ok (g a)) :
    ∀ l : List α, collectE f l = Except.ok (l.map g)
  | [] => rfl
  | a :: l => by
    rw [collectE, hf a, collectE_map_ok f g hf l]
    rfl

theorem collectE_ok_mem {f : α → Except PyError β} :
    ∀ {l : List α} {res : List β}, collectE f l = Except.ok res →
      ∀ a ∈ l, ∃ b, f a = Except.ok b := by
  intro l
  induction l with
  | nil => intro res _ a ha; cases ha
  | cons x xs ih =>
    intro res hres a ha
    rw [collectE] at hres
    cases hfx : f x with
    | error e => rw [hfx] at hres; cases hres
    | ok b =>
      rw [hfx] at hres
      cases hrest : collectE f xs with
      | error e => rw [hrest] at hres; cases hres
      | ok bs =>
        cases ha with
        | head => exact ⟨b, hfx⟩
        | tail _ hmem => exact ih hrest a hmem

theorem collectE_ok_proj {f : α → Except PyError β} {proj : β → α}
    (hf : ∀ a b, f a = Except.ok b → proj b = a) :
    ∀ {l : List α} {res : List β}, collectE f l = Except.ok res →
      res.map proj = l := by
  intro l
  induction l with
  | nil => intro res hres; cases hres; rfl
  | cons x xs ih =>
    intro res hres
    rw [collectE] at hres
    cases hfx : f x with
    | error e => rw [hfx] at hres; cases hres
    | ok b =>
      rw [hfx] at hres
      cases hrest : collectE f xs with
      | error e => rw [hrest] at hres; cases hres
      | ok bs =>
        rw [hrest] at hres
        cases hres
        simp only [List.map_cons]
        rw [hf x b hfx, ih hrest]

theorem collectE_ok_forall2 {f : α → Except PyError β} :
    ∀ {l : List α} {res : List β}, collectE f l = Except.ok res →
      List.Forall₂ (fun a b => f a = Except.ok b) l res := by
  intro l
  induction l with
  | nil => intro res hres; cases hres; exact List.Forall₂.nil
  | cons x xs ih =>
    intro res hres
    rw [collectE] at hres
    cases hfx : f x with
    | error e => rw [hfx] at hres; cases hres
    | ok b =>
      rw [hfx] at hres
      cases hrest : collectE f xs with
      | error e => rw [hrest] at hres; cases hres
      | ok bs =>
        rw [hrest] at hres
        cases hres
        exact List.Forall₂.cons hfx (ih hrest)

theorem unbind0_length (t : Tensor) (h : Nat) (rest : List Nat)
    (hs : t.shape = h :: rest) : (unbind0 t).length = h := by
  unfold unbind0
  rw [hs]
  simp

theorem transpose01_shape (t : Tensor) (a b : Nat) (rest : List Nat)
    (hs : t.shape = a :: b :: rest) :
    (transpose01 t).shape = b :: a :: rest := by
  unfold transpose01
  rw [hs]

theorem splitGrad_length_gt2 (t : Tensor) (a b c : Nat) (rest : List Nat)
    (hs : t.shape = a :: b :: c :: rest) : (splitGrad t).length = b := by
  unfold splitGrad
  rw [hs]
  simp only [List.length_cons]
  rw [if_pos (by omega)]
  exact unbind0_length _ b (a :: c :: rest)
    (transpose01_shape t a b (c :: rest) hs)

theorem splitGrad_dim2 (t : Tensor) (a b : Nat)
    (hs : t.shape = [a, b]) : splitGrad t = [t] := by
  unfold splitGrad
  rw [hs]
  simp

theorem get_grads_ok_spec (env : GradEnv) (lossFn : Tensor → List Nat → Int)
    (tok : String → EncodedInput) (convert : List Int → List String)
    (s0 : MState) (texts : List String) (s' : MState) (res : GradientResult)
    (hrun : get_grads env lossFn tok convert s0 texts = (s', Except.ok res)) :
    env.isT5 = false ∧ env.backwardOK = true ∧
    ∃ (tokens : List (List String)) (p : Tensor),
      collectE (fun d => (getField "input_ids" d).map convert) (tokenize tok texts)
        = Except.ok tokens ∧
      (modelForward env (tokenize tok texts)).bind asScores = Except.ok p ∧
      res = { tokens := tokens, ids := tokenize tok texts,
              gradient := splitGrad (env.gradOf (lossFn p (argmaxDim1 p))) } ∧
      s' = { trainMode := true, embRequiresGrad := s0.embRequiresGrad,
             hookRegistered := false, gradsZeroed := true,
             lastBackwardLoss := some (lossFn p (argmaxDim1 p)) } := by
  simp only [get_grads] at hrun
  split at hrun
  · simp at hrun
  · rename_i hT5
    refine ⟨by simpa using hT5, ?_⟩
    split at hrun
    · simp at hrun
    · rename_i tokens htok
      split at hrun
      · simp at hrun
      · rename_i pr hfw
        split at hrun
        · simp at hrun
        · rename_i p hsc
          split at hrun
          · rename_i hback
            injection hrun with hs hr
            injection hr with hr
            refine ⟨hback, tokens, p, htok, ?_, hr.symm, ?_⟩
            · rw [hfw]
              simpa using hsc
            · rw [← hs]
          · simp at hrun

/-! Claim theorems. -/

/-- C4: on a text-to-text (`T5ForTextToText`) model, `get_grads` raises the
unsupported-operation error and performs no mutation at all: the final
mutable state (train mode, embedding `requires_grad`, hook registration,
gradient accumulation) is exactly the initial state. -/
theorem get_grads_t5_unsupported (env : GradEnv) (lossFn : Tensor → List Nat → Int)
    (tok : String → EncodedInput) (convert : List Int → List String)
    (s0 : MState) (texts : List String) (h : env.isT5 = true) :
    get_grads env lossFn tok convert s0 texts =
      (s0, Except.error PyError.notImplemented) := by
  simp [get_grads, h]

/-- Witness for C4 at a concrete text-to-text environment. -/
theorem get_grads_t5_unsupported_witness :
    envT5.isT5 = true ∧
    get_grads envT5 lossFn0 tok0 convert0 mstate0 texts2 =
      (mstate0, Except.error PyError.notImplemented) :=
  ⟨rfl, get_grads_t5_unsupported envT5 lossFn0 tok0 convert0 mstate0 texts2 rfl⟩

/-- C5: the per-batch forward step returns the model's output list as-is
when the first output element is a string, and returns only the first
output element (the score tensor) in every other case. -/
theorem model_predict_output_selection :
    (∀ (s : String) (rest : List OutItem),
      selectModelOutput (OutItem.str s :: rest) =
        Except.ok (PredictResult.full (OutItem.str s :: rest))) ∧
    (∀ (t : Tensor) (rest : List OutItem),
      selectModelOutput (OutItem.tens t :: rest) =
        Except.ok (PredictResult.firstOnly (OutItem.tens t))) :=
  ⟨fun _ _ => rfl, fun _ _ => rfl⟩

/-- C10: every successful `get_grads` call leaves the wrapped model in
training mode, whatever mode it was in before the call (the prior mode is
never recorded or restored). -/
theorem get_grads_leaves_training_mode (env : GradEnv)
    (lossFn : Tensor → List Nat → Int) (tok : String → EncodedInput)
    (convert : List Int → List String) (s0 : MState) (texts : List String)
    (s' : MState) (res : GradientResult)
    (hrun : get_grads env lossFn tok convert s0 texts = (s', Except.ok res)) :
    s'.trainMode = true := by
  obtain ⟨-, -, tokens, p, -, -, -, hs⟩ :=
    get_grads_ok_spec env lossFn tok convert s0 texts s' res hrun
  rw [hs]

/-- Witness for C10: a concrete successful run started in evaluation mode
ends in training mode. -/
theorem get_grads_leaves_training_mode_witness :
    mstate0.trainMode = false ∧ mstateDone.trainMode = true :=
  ⟨rfl, get_grads_leaves_training_mode envOK3 lossFn0 tok0 convert0 mstate0
    texts2 mstateDone resOK3 rfl⟩

/-- C2 counterexample: when the backward pass raises after the hook has
been registered, `get_grads` propagates the exception with the embedding
layer's `requires_grad` flag still forced to `true` (the initial value was
`false`) and the backward hook still registered: the cleanup is not on this
exit path. -/
theorem get_grads_cleanup_counterexample :
    mstate0.embRequiresGrad = false ∧ mstate0.hookRegistered = false ∧
    get_grads envBackFail lossFn0 tok0 convert0 mstate0 texts2 =
      ({ trainMode := true, embRequiresGrad := true, hookRegistered := true,
         gradsZeroed := true, lastBackwardLoss := none },
       Except.error PyError.runtimeError) :=
  ⟨rfl, rfl, rfl⟩

/-- C2 amended: on the successful exit path (only), `get_grads` restores
the embedding layer's `requires_grad` flag to its value before the call and
deregisters the backward hook; on exceptional exits after hook registration
both mutations persist. -/
theorem get_grads_cleanup_on_success (env : GradEnv)
    (lossFn : Tensor → List Nat → Int) (tok : String → EncodedInput)
    (convert : List Int → List String) (s0 : MState) (texts : List String)
    (s' : MState) (res : GradientResult)
    (hrun : get_grads env lossFn tok convert s0 texts = (s', Except.ok res)) :
    s'.embRequiresGrad = s0.embRequiresGrad ∧ s'.hookRegistered = false := by
  obtain ⟨-, -, tokens, p, -, -, -, hs⟩ :=
    get_grads_ok_spec env lossFn tok convert s0 texts s' res hrun
  rw [hs]
  exact ⟨rfl, rfl⟩

/-- Witness for the amended C2 at a concrete successful run. -/
theorem get_grads_cleanup_on_success_witness :
    mstateDone.embRequiresGrad = mstate0.embRequiresGrad ∧
    mstateDone.hookRegistered = false :=
  get_grads_cleanup_on_success envOK3 lossFn0 tok0 convert0 mstate0 texts2
    mstateDone resOK3 rfl

/-- C3: on a successful classification run, the returned gradient sequence
has length equal to the number of input texts when the captured gradient
tensor has more than two dimensions with the batch (number of texts) in
dimension 1, and length exactly 1 when the captured gradient tensor has
exactly two dimensions. -/
theorem get_grads_gradient_length (env : GradEnv)
    (lossFn : Tensor → List Nat → Int) (tok : String → EncodedInput)
    (convert : List Int → List String) (s0 : MState) (texts : List String)
    (s' : MState) (res : GradientResult)
    (hrun : get_grads env lossFn tok convert s0 texts = (s', Except.ok res)) :
    ((∀ x, ∃ a c rest, (env.gradOf x).shape = a :: texts.length :: c :: rest) →
      res.gradient.length = texts.length) ∧
    ((∀ x, ∃ a b, (env.gradOf x).shape = [a, b]) →
      res.gradient.length = 1) := by
  obtain ⟨-, -, tokens, p, -, -, hres, -⟩ :=
    get_grads_ok_spec env lossFn tok convert s0 texts s' res hrun
  subst hres
  constructor
  · intro hsh
    obtain ⟨a, c, rest, hs⟩ := hsh (lossFn p (argmaxDim1 p))
    exact splitGrad_length_gt2 _ a _ c rest hs
  · intro hsh
    obtain ⟨a, b, hs⟩ := hsh (lossFn p (argmaxDim1 p))
    show (splitGrad (env.gradOf (lossFn p (argmaxDim1 p)))).length = 1
    rw [splitGrad_dim2 _ a b hs]
    rfl

/-- Witness for C3: with a `[3, 2, 4]`-shaped captured gradient and two
texts, the returned gradient sequence has two entries. -/
theorem get_grads_gradient_length_witness :
    resOK3.gradient.length = texts2.length :=
  (get_grads_gradient_length envOK3 lossFn0 tok0 convert0 mstate0 texts2
    mstateDone resOK3 rfl).1 (fun _ => ⟨3, 4, [], rfl⟩)

/-- C9: on a successful classification run, the loss that the backward
pass differentiates is the configured loss function applied to the score
tensor and the per-row arg-max labels of that same score tensor, and the
returned gradients derive from the hook-captured gradient of exactly that
self-predicted-label loss. -/
theorem get_grads_backward_argmax_loss (env : GradEnv)
    (lossFn : Tensor → List Nat → Int) (tok : String → EncodedInput)
    (convert : List Int → List String) (s0 : MState) (texts : List String)
    (s' : MState) (res : GradientResult) (p : Tensor)
    (hrun : get_grads env lossFn tok convert s0 texts = (s', Except.ok res))
    (hp : (modelForward env (tokenize tok texts)).bind asScores = Except.ok p) :
    s'.lastBackwardLoss = some (lossFn p (argmaxDim1 p)) ∧
    res.gradient = splitGrad (env.gradOf (lossFn p (argmaxDim1 p))) := by
  obtain ⟨-, -, tokens, q, -, hq, hres, hs⟩ :=
    get_grads_ok_spec env lossFn tok convert s0 texts s' res hrun
  rw [hq] at hp
  injection hp with hp
  subst hp
  rw [hres, hs]
  exact ⟨rfl, rfl⟩

/-- Witness for C9 at a concrete run: the differentiated loss is
`lossFn0` of the scores and their arg-max labels. -/
theorem get_grads_backward_argmax_loss_witness :
    mstateDone.lastBackwardLoss = some (lossFn0 scores2 (argmaxDim1 scores2)) ∧
    resOK3.gradient = splitGrad (envOK3.gradOf (lossFn0 scores2 (argmaxDim1 scores2))) :=
  get_grads_backward_argmax_loss envOK3 lossFn0 tok0 convert0 mstate0 texts2
    mstateDone resOK3 scores2 rfl rfl

/-- C8: on every successful `get_grads` run, the returned `ids` are the
per-text `EncodedInput`s in input order, and the returned `tokens` entry
for each text is exactly `convert_ids_to_tokens` applied to that same
text's own "input_ids" sequence, per text and in order. -/
theorem get_grads_tokens_roundtrip (env : GradEnv)
    (lossFn : Tensor → List Nat → Int) (tok : String → EncodedInput)
    (convert : List Int → List String) (s0 : MState) (texts : List String)
    (s' : MState) (res : GradientResult)
    (hrun : get_grads env lossFn tok convert s0 texts = (s', Except.ok res)) :
    res.ids = tokenize tok texts ∧
    List.Forall₂ (fun d ts => ∃ v, lookupField "input_ids" d = some v ∧ ts = convert v)
      res.ids res.tokens := by
  obtain ⟨-, -, tokens, p, htok, -, hres, -⟩ :=
    get_grads_ok_spec env lossFn tok convert s0 texts s' res hrun
  subst hres
  refine ⟨rfl, ?_⟩
  have h2 := collectE_ok_forall2 htok
  refine h2.imp ?_
  intro d ts hf
  unfold getField at hf
  cases hl : lookupField "input_ids" d with
  | none =>
    rw [hl] at hf
    simp [Except.map] at hf
  | some v =>
    rw [hl] at hf
    simp only [Except.map] at hf
    injection hf with h
    exact ⟨v, rfl, h.symm⟩

/-- Witness for C8 at a concrete successful run. -/
theorem get_grads_tokens_roundtrip_witness :
    resOK3.ids = tokenize tok0 texts2 ∧
    List.Forall₂ (fun d ts => ∃ v, lookupField "input_ids" d = some v ∧ ts = convert0 v)
      resOK3.ids resOK3.tokens :=
  get_grads_tokens_roundtrip envOK3 lossFn0 tok0 convert0 mstate0 texts2
    mstateDone resOK3 rfl

theorem batch_model_predict_pointwise {β : Type}
    (f : List EncodedInput → Except PyError (List β)) (g : EncodedInput → β)
    (hf : ∀ l, f l = Except.ok (l.map g)) (items : List EncodedInput) (b : Nat) :
    batch_model_predict f items b = Except.ok (items.map g) := by
  unfold batch_model_predict
  rw [collectE_map_ok f (List.map g) hf (chunksOf b items)]
  simp only [Except.map]
  rw [← List.map_flatten, chunksOf_flatten]

/-- C1: for every non-empty input list and every positive batch size, when
the per-batch forward step computes each input's result from that input
alone (pointwise model), `__call__` succeeds with one result per input text
in the original input order, and the result does not depend on the batch
size used for the partition. -/
theorem call_batching_transparent {β : Type} (tok : String → EncodedInput)
    (f : List EncodedInput → Except PyError (List β)) (g : EncodedInput → β)
    (b b' : Nat) (texts : List String)
    (hne : texts ≠ []) (hb : 0 < b) (hb' : 0 < b')
    (hf : ∀ l, f l = Except.ok (l.map g)) :
    wrapperCall tok f b texts = Except.ok ((tokenize tok texts).map g) ∧
    ((tokenize tok texts).map g).length = texts.length ∧
    wrapperCall tok f b texts = wrapperCall tok f b' texts := by
  have h1 := batch_model_predict_pointwise f g hf (tokenize tok texts) b
  have h2 := batch_model_predict_pointwise f g hf (tokenize tok texts) b'
  refine ⟨h1, ?_, ?_⟩
  · simp [tokenize]
  · rw [wrapperCall, wrapperCall, h1, h2]

/-- Witness for C1: two texts, batch sizes 2 and 5 agree. -/
theorem call_batching_transparent_witness :
    texts2 ≠ [] ∧ 0 < 2 ∧ 0 < 5 ∧
    (wrapperCall tok0 (fun l => Except.ok (l.map fieldKeys)) 2 texts2 =
        Except.ok ((tokenize tok0 texts2).map fieldKeys) ∧
      ((tokenize tok0 texts2).map fieldKeys).length = texts2.length ∧
      wrapperCall tok0 (fun l => Except.ok (l.map fieldKeys)) 2 texts2 =
        wrapperCall tok0 (fun l => Except.ok (l.map fieldKeys)) 5 texts2) :=
  ⟨by decide, by decide, by decide,
    call_batching_transparent tok0 (fun l => Except.ok (l.map fieldKeys))
      fieldKeys 2 5 texts2 (by decide) (by decide) (by decide) (fun _ => rfl)⟩

/-- C6 counterexample: two encoded inputs with different field-name sets —
the second has an extra field "b" — are transposed without any error; the
extra field is silently dropped rather than failing fast. -/
theorem transpose_silent_drop_counterexample :
    fieldKeys [("a", [(2 : Int)]), ("b", [3])] ≠ fieldKeys [("a", [(1 : Int)])] ∧
    transposeInputs [[("a", [1])], [("a", [2]), ("b", [3])]] =
      Except.ok [("a", [[1], [2]])] :=
  ⟨by decide, rfl⟩

/-- C6 amended: the transposition fails fast (with `KeyError`) exactly when
some input lacks a field of the FIRST input's field set; on success the
produced dictionary's fields are the first input's fields in order, so a
field present only in a later input is silently dropped with no error. -/
theorem transposeInputs_amended (first : EncodedInput) (rest : List EncodedInput) :
    ((∃ k ∈ fieldKeys first, ∃ d ∈ first :: rest, lookupField k d = none) →
      ∃ e, transposeInputs (first :: rest) = Except.error e) ∧
    (∀ res, transposeInputs (first :: rest) = Except.ok res →
      res.map Prod.fst = fieldKeys first) := by
  constructor
  · rintro ⟨k, hk, d, hd, hnone⟩
    cases htr : transposeInputs (first :: rest) with
    | error e => exact ⟨e, rfl⟩
    | ok res =>
      exfalso
      rw [transposeInputs] at htr
      obtain ⟨bk, hbk⟩ := collectE_ok_mem htr k hk
      cases hcol : collectE (getField k) (first :: rest) with
      | error e =>
        rw [hcol] at hbk
        simp [Except.map] at hbk
      | ok vs =>
        obtain ⟨v, hv⟩ := collectE_ok_mem hcol d hd
        simp [getField, hnone] at hv
  · intro res hres
    rw [transposeInputs] at hres
    refine collectE_ok_proj ?_ hres
    intro k p hkp
    cases hcol : collectE (getField k) (first :: rest) with
    | error e =>
      rw [hcol] at hkp
      simp [Except.map] at hkp
    | ok vs =>
      rw [hcol] at hkp
      simp only [Except.map] at hkp
      injection hkp with h
      rw [← h]

/-- Witness for the amended C6: a later input missing a field of the first
input makes the transposition fail. -/
theorem transposeInputs_amended_witness :
    ∃ e, transposeInputs [[("a", [(1 : Int)]), ("b", [2])], [("a", [3])]] =
      Except.error e :=
  (transposeInputs_amended [("a", [1]), ("b", [2])] [[("a", [3])]]).1
    ⟨"b", by decide, [("a", [3])], by simp, by decide⟩

/-- C7 counterexample: on the empty input list, `__call__` silently
returns an empty result with no error at all — even though the per-batch
forward step itself would raise on an empty batch, it is never invoked. -/
theorem call_empty_input_counterexample :
    wrapperCall tok0 f0 32 [] = Except.ok [] ∧
    f0 [] = Except.error PyError.indexError :=
  ⟨rfl, rfl⟩

/-- C7 amended: on the empty input list, `__call__` returns the empty
result successfully for every tokenizer, per-batch forward step and batch
size; it does not fail fast. -/
theorem call_empty_input_amended {β : Type} (tok : String → EncodedInput)
    (f : List EncodedInput → Except PyError (List β)) (b : Nat) :
    wrapperCall tok f b [] = Except.ok [] := rfl
